import Mathlib

/-!
Verification of the repository-contract layer of the starlite repository
(`src/starlite/contrib/repository/abc.py`).

The source file declares `AbstractRepository`, an abstract interface: every
data operation (`add`, `get`, `delete`, `upsert`, ...) is an abstract method
carrying only its docstring contract, while three helpers are concrete:
`check_not_found`, `get_id_attribute_value` and `set_id_attribute_value`.
The concrete helpers are embedded directly from the source.  The abstract
operations have no implementation in the sources, so they are modelled from
the specification's words over a list-backed collection state; each such
definition is marked `Modelled from the spec:`.

Entities are modelled as association lists from attribute names to integer
values: the source treats entities as opaque objects accessed only through
`getattr`/`setattr` on named attributes, which the association list captures.
-/

namespace Starlite

/-- Attribute names on an entity (Python attribute names). -/
abbrev Attr := String

/-- Attribute values; the contract only compares and orders them. -/
abbrev Val := Int

/-- The two error kinds raised by this layer (spec section 7):
`NotFoundError` and the generic `RepositoryError`. -/
inductive RepoError where
  | notFound
  | repositoryError
deriving DecidableEq, Repr

/-- An entity: a record with named attributes, modelled as an association
list (first binding of a name wins, as a Python object has one slot per
attribute name). -/
structure Entity where
  attrs : List (Attr × Val)
deriving DecidableEq, Repr

/-- Python `getattr(e, a)`: value of attribute `a` on `e`, `none` when the
attribute is absent. -/
def Entity.getattr (e : Entity) (a : Attr) : Option Val :=
  (e.attrs.find? (fun p => p.1 = a)).map (fun p => p.2)

/-- Update the first binding of `a` in an association list, appending a new
binding when none exists. -/
def setPair (a : Attr) (v : Val) : List (Attr × Val) → List (Attr × Val)
  | [] => [(a, v)]
  | p :: ps => if p.1 = a then (a, v) :: ps else p :: setPair a v ps

/-- Python `setattr(e, a, v)`. -/
def Entity.setattr (e : Entity) (a : Attr) (v : Val) : Entity :=
  ⟨setPair a v e.attrs⟩

/-- `AbstractRepository.id_attribute`: name of the primary identifying
attribute, `"id"` by default (abc.py line 29). -/
def id_attribute : Attr := "id"

/-- Embedding of the static method `AbstractRepository.check_not_found`
(abc.py lines 246-258): raise `NotFoundError` when the argument is `None`,
else return the item unchanged. -/
def check_not_found {α : Type} (item_or_none : Option α) : Except RepoError α :=
  match item_or_none with
  | none => Except.error RepoError.notFound
  | some item => Except.ok item

/-- Embedding of the class method `AbstractRepository.get_id_attribute_value`
(abc.py lines 260-270): `getattr(item, cls.id_attribute)`. -/
def get_id_attribute_value (item : Entity) : Option Val :=
  item.getattr id_attribute

/-- Embedding of the class method `AbstractRepository.set_id_attribute_value`
(abc.py lines 272-284): `setattr(item, cls.id_attribute, item_id)` followed by
`return item` — the function returns the mutated item itself, not a copy. -/
def set_id_attribute_value (item_id : Val) (item : Entity) : Entity :=
  item.setattr id_attribute item_id

namespace Repo

/-- `e` has value `item_id` at the id attribute `ida`. -/
def hasId (ida : Attr) (item_id : Val) (e : Entity) : Bool :=
  e.getattr ida == some item_id

/-- `a` and `b` carry equal values of the id attribute `ida`. -/
def sameId (ida : Attr) (a b : Entity) : Bool :=
  a.getattr ida == b.getattr ida

/-- AND-semantics keyword filter: `e` matches `kwargs` when every named
attribute of `e` equals the given value. -/
def matchesKwargs (e : Entity) (kwargs : List (Attr × Val)) : Bool :=
  kwargs.all (fun p => e.getattr p.1 == some p.2)

/-- Modelled from the spec: `AbstractRepository.add` is abstract in abc.py
(lines 36-45); per the spec, "inserts one entity; returns the stored
entity". -/
def add (s : List Entity) (data : Entity) : List Entity × Entity :=
  (s ++ [data], data)

/-- Modelled from the spec: `AbstractRepository.get` is abstract in abc.py
(lines 107-120); per the spec, "fetch by primary identifier; fails with
NotFound when absent".  The empty lookup result is converted by the concrete
helper `check_not_found`. -/
def get (ida : Attr) (s : List Entity) (item_id : Val) : Except RepoError Entity :=
  check_not_found (s.find? (hasId ida item_id))

/-- Modelled from the spec: `AbstractRepository.delete` is abstract in abc.py
(lines 70-82); per the spec, "removes and returns the entity; fails with
NotFound when absent". -/
def delete (ida : Attr) (s : List Entity) (item_id : Val) :
    Except RepoError (List Entity × Entity) :=
  match s.find? (hasId ida item_id) with
  | none => Except.error RepoError.notFound
  | some e => Except.ok (s.filter (fun x => !(hasId ida item_id x)), e)

/-- Modelled from the spec: `AbstractRepository.exists` is abstract in abc.py
(lines 95-105); per the spec, "predicate existence check, never raises
NotFound".  Named `existsKw` because `exists` is reserved in Lean. -/
def existsKw (s : List Entity) (kwargs : List (Attr × Val)) : Bool :=
  s.any (fun e => matchesKwargs e kwargs)

/-- Modelled from the spec: `AbstractRepository.get_or_create` is abstract in
abc.py (lines 136-145); per the spec, "fetch-or-insert; boolean flag
indicates whether a new entity was created".  Returns the resulting
collection state together with the `(entity, created)` pair. -/
def get_or_create (s : List Entity) (kwargs : List (Attr × Val)) :
    List Entity × Entity × Bool :=
  match s.find? (fun e => matchesKwargs e kwargs) with
  | some e => (s, e, false)
  | none => (s ++ [⟨kwargs⟩], ⟨kwargs⟩, true)

/-- Replace an entity carrying the same id-attribute value as `data` by
`data`, leaving other entities unchanged. -/
def replaceSame (ida : Attr) (data : Entity) (e : Entity) : Entity :=
  if sameId ida data e then data else e

/-- Modelled from the spec: `AbstractRepository.update` is abstract in abc.py
(lines 158-171); per the spec, "full update of one entity identified by its
id attribute; fails with NotFound if no existing row matches". -/
def update (ida : Attr) (s : List Entity) (data : Entity) :
    Except RepoError (List Entity × Entity) :=
  if s.any (sameId ida data) then
    Except.ok (s.map (replaceSame ida data), data)
  else Except.error RepoError.notFound

/-- Modelled from the spec: `AbstractRepository.upsert` is abstract in abc.py
(lines 188-205); per the spec, "update-if-exists else insert". -/
def upsert (ida : Attr) (s : List Entity) (data : Entity) :
    Except RepoError (List Entity × Entity) :=
  match update ida s data with
  | Except.error RepoError.notFound => Except.ok (add s data)
  | r => r

/-- A positional filter, one of the three kinds of the spec's `FilterTypes`
union (spec section 6): range before/after bounds on a field, set membership
on a field, or limit/offset pagination. -/
inductive FilterTy where
  | beforeAfter (field : Attr) (before : Option Val) (after : Option Val)
  | collectionFilter (field : Attr) (values : List Val)
  | limitOffset (limit : Nat) (offset : Nat)
deriving DecidableEq, Repr

/-- Whether a filter is the pagination (limit/offset) kind. -/
def isPagination : FilterTy → Bool
  | FilterTy.limitOffset _ _ => true
  | _ => false

/-- Apply one positional filter to a collection. -/
def applyFilter (s : List Entity) : FilterTy → List Entity
  | FilterTy.beforeAfter f b a =>
      s.filter (fun e =>
        (match b, e.getattr f with
         | none, _ => true
         | some bv, some v => v < bv
         | some _, none => false)
        &&
        (match a, e.getattr f with
         | none, _ => true
         | some av, some v => av < v
         | some _, none => false))
  | FilterTy.collectionFilter f vs =>
      s.filter (fun e =>
        match e.getattr f with
        | some v => vs.contains v
        | none => false)
  | FilterTy.limitOffset lim off => (s.drop off).take lim

/-- Apply the positional filters in order (AND semantics). -/
def applyFilters (filters : List FilterTy) (s : List Entity) : List Entity :=
  filters.foldl applyFilter s

/-- Modelled from the spec: `AbstractRepository.list` is abstract in abc.py
(lines 219-229); per the spec, "filtered listing, AND semantics across both
positional filter objects and keyword equality filters". -/
def list (filters : List FilterTy) (kwargs : List (Attr × Val))
    (s : List Entity) : List Entity :=
  applyFilters filters (s.filter (fun e => matchesKwargs e kwargs))

/-- Modelled from the spec: `AbstractRepository.list_and_count` is abstract in
abc.py (lines 207-217); per the spec, "listing plus a total count that
ignores any pagination filter". -/
def list_and_count (filters : List FilterTy) (kwargs : List (Attr × Val))
    (s : List Entity) : List Entity × Nat :=
  (list filters kwargs s,
   (list (filters.filter (fun f => !(isPagination f))) kwargs s).length)

/-- Modelled from the spec: `AbstractRepository.filter_collection_by_kwargs`
is abstract in abc.py (lines 231-244); per its declared contract, filter the
collection with AND semantics, raising `RepositoryError` "if a named
attribute doesn't exist on model_type".  `model_attrs` is the set of
attribute names of `model_type`. -/
def filter_collection_by_kwargs (model_attrs : List Attr)
    (collection : List Entity) (kwargs : List (Attr × Val)) :
    Except RepoError (List Entity) :=
  if kwargs.all (fun p => model_attrs.contains p.1) then
    Except.ok (collection.filter (fun e => matchesKwargs e kwargs))
  else Except.error RepoError.repositoryError

end Repo

/-! ### Helper lemmas -/

theorem find?_setPair_same (a : Attr) (v : Val) (l : List (Attr × Val)) :
    (setPair a v l).find? (fun p => p.1 = a) = some (a, v) := by
  induction l with
  | nil => simp [setPair]
  | cons p ps ih =>
    by_cases h : p.1 = a
    · simp [setPair, h]
    · simp [setPair, h, ih]

theorem find?_setPair_other (a b : Attr) (v : Val) (l : List (Attr × Val))
    (hab : b ≠ a) :
    (setPair a v l).find? (fun p => p.1 = b) = l.find? (fun p => p.1 = b) := by
  induction l with
  | nil => simp [setPair, Ne.symm hab]
  | cons p ps ih =>
    by_cases h : p.1 = a
    · have hpb : ¬ p.1 = b := by
        rw [h]; exact Ne.symm hab
      simp [setPair, h, Ne.symm hab, hpb]
    · by_cases hpb : p.1 = b
      · simp [setPair, h, hpb, hab]
      · simp [setPair, h, hpb, ih]

theorem getattr_setattr_same (e : Entity) (a : Attr) (v : Val) :
    (e.setattr a v).getattr a = some v := by
  simp [Entity.getattr, Entity.setattr, find?_setPair_same]

theorem getattr_setattr_other (e : Entity) (a b : Attr) (v : Val) (hab : b ≠ a) :
    (e.setattr a v).getattr b = e.getattr b := by
  simp [Entity.getattr, Entity.setattr, find?_setPair_other a b v e.attrs hab]

/-! ### Claim theorems -/

/-- C8: the static helper `check_not_found` fails with `NotFoundError` exactly
when its argument is the empty-value sentinel `None`, and on any non-empty
input `some v` it returns exactly `v`.  As a pure function of its argument, it
has no side effects. -/
theorem check_not_found_spec (x : Option Val) (v : Val) :
    (check_not_found x = Except.error RepoError.notFound ↔ x = none) ∧
    check_not_found (some v) = Except.ok v := by
  refine ⟨?_, rfl⟩
  cases x <;> simp [check_not_found]

/-- C8 witness: evaluation at the concrete inputs `none` and `some 5`. -/
theorem check_not_found_spec_witness :
    check_not_found (none : Option Val) = Except.error RepoError.notFound ∧
    check_not_found (some (5 : Val)) = Except.ok (5 : Val) :=
  ⟨(check_not_found_spec none 5).1.mpr rfl, (check_not_found_spec none 5).2⟩

/-- C9: on a repository whose `id_attribute` is `"id"`, the set/get pair on
the id attribute round-trips: for every item and value `v`,
`get_id_attribute_value (set_id_attribute_value v item) = v`; in particular
setting `42` and reading back returns `42`. -/
theorem set_get_id_attribute_roundtrip (item : Entity) (v : Val) :
    get_id_attribute_value (set_id_attribute_value v item) = some v := by
  simp [get_id_attribute_value, set_id_attribute_value, getattr_setattr_same]

/-- C10: `set_id_attribute_value item_id item` returns the item itself with
only the attribute named by `id_attribute` updated: reading any attribute
`b` of the result gives `item_id` when `b` is the id attribute and the
original value of `b` on `item` otherwise (frame condition). -/
theorem set_id_attribute_value_frame (item : Entity) (item_id : Val) (b : Attr) :
    (set_id_attribute_value item_id item).getattr b =
      if b = id_attribute then some item_id else item.getattr b := by
  by_cases hb : b = id_attribute
  · subst hb
    simp [set_id_attribute_value, getattr_setattr_same]
  · simp [hb, set_id_attribute_value, getattr_setattr_other item id_attribute b item_id hb]

/-- C1: for every collection state and entity `data`, `upsert` succeeds — it
never fails with `NotFoundError` — and it behaves as update-if-exists
(when an entity with the same id-attribute value is present) else insert. -/
theorem upsert_never_notFound (ida : Attr) (s : List Entity) (data : Entity) :
    (∃ r, Repo.upsert ida s data = Except.ok r) ∧
    Repo.upsert ida s data =
      (if s.any (Repo.sameId ida data) then Repo.update ida s data
       else Except.ok (Repo.add s data)) := by
  unfold Repo.upsert Repo.update
  by_cases h : s.any (Repo.sameId ida data)
  · simp [h]
  · simp [h]

/-- C4: for every id value not carried by any entity in the collection,
`get` fails with `NotFoundError`, `delete` fails with `NotFoundError`, and
`exists` with the keyword filter `id = item_id` returns `false` (it is a
total boolean predicate, so it raises nothing). -/
theorem absent_id_spec (ida : Attr) (s : List Entity) (item_id : Val)
    (h : ∀ e ∈ s, e.getattr ida ≠ some item_id) :
    Repo.get ida s item_id = Except.error RepoError.notFound ∧
    Repo.delete ida s item_id = Except.error RepoError.notFound ∧
    Repo.existsKw s [(ida, item_id)] = false := by
  have hfind : s.find? (Repo.hasId ida item_id) = none := by
    rw [List.find?_eq_none]
    intro e he
    simp [Repo.hasId, h e he]
  refine ⟨?_, ?_, ?_⟩
  · simp [Repo.get, hfind, check_not_found]
  · simp [Repo.delete, hfind]
  · simp only [Repo.existsKw]
    rw [List.any_eq_false]
    intro e he
    simp [Repo.matchesKwargs, h e he]

/-- C4 witness: a one-entity collection holding id 1, queried at id 2. -/
theorem absent_id_spec_witness :
    Repo.get id_attribute [Entity.mk [("id", 1)]] 2 =
      Except.error RepoError.notFound ∧
    Repo.delete id_attribute [Entity.mk [("id", 1)]] 2 =
      Except.error RepoError.notFound ∧
    Repo.existsKw [Entity.mk [("id", 1)]] [(id_attribute, 2)] = false :=
  absent_id_spec id_attribute [Entity.mk [("id", 1)]] 2 (by decide)

/-- C7: whenever some keyword names an attribute absent from `model_type`,
`filter_collection_by_kwargs` fails with the generic `RepositoryError`,
which is not `NotFoundError`. -/
theorem filter_by_kwargs_bad_attr (model_attrs : List Attr)
    (collection : List Entity) (kwargs : List (Attr × Val)) (k : Attr) (v : Val)
    (hmem : (k, v) ∈ kwargs) (hk : model_attrs.contains k = false) :
    Repo.filter_collection_by_kwargs model_attrs collection kwargs =
      Except.error RepoError.repositoryError ∧
    Repo.filter_collection_by_kwargs model_attrs collection kwargs ≠
      Except.error RepoError.notFound := by
  have hall : kwargs.all (fun p => model_attrs.contains p.1) = false := by
    rw [List.all_eq_false]
    exact ⟨(k, v), hmem, by simpa using hk⟩
  have hcond : ¬ (kwargs.all (fun p => model_attrs.contains p.1) = true) := by
    rw [hall]
    exact Bool.false_ne_true
  constructor
  · unfold Repo.filter_collection_by_kwargs
    rw [if_neg hcond]
  · unfold Repo.filter_collection_by_kwargs
    rw [if_neg hcond]
    simp

/-- C7 witness: a model exposing only `"id"`, filtered on an unknown field. -/
theorem filter_by_kwargs_bad_attr_witness :
    Repo.filter_collection_by_kwargs ["id"] [Entity.mk [("id", 1)]]
      [("unknown", 0)] = Except.error RepoError.repositoryError ∧
    Repo.filter_collection_by_kwargs ["id"] [Entity.mk [("id", 1)]]
      [("unknown", 0)] ≠ Except.error RepoError.notFound :=
  filter_by_kwargs_bad_attr ["id"] [Entity.mk [("id", 1)]] [("unknown", 0)]
    "unknown" 0 (by decide) (by decide)

/-- C3: when no limit/offset filter appears among the positional filters, the
count component of `list_and_count` equals the length of the result of
`list` with the same filters; and appending a limit/offset filter to the
filter list, over the same dataset, leaves the count component unchanged. -/
theorem list_and_count_spec (filters : List Repo.FilterTy)
    (kwargs : List (Attr × Val)) (s : List Entity)
    (h : ∀ f ∈ filters, Repo.isPagination f = false) :
    (Repo.list_and_count filters kwargs s).2 =
      (Repo.list filters kwargs s).length ∧
    ∀ lim off,
      (Repo.list_and_count
          (filters ++ [Repo.FilterTy.limitOffset lim off]) kwargs s).2 =
        (Repo.list_and_count filters kwargs s).2 := by
  have hself : filters.filter (fun f => !(Repo.isPagination f)) = filters := by
    rw [List.filter_eq_self]
    intro f hf
    simp [h f hf]
  constructor
  · simp [Repo.list_and_count, hself]
  · intro lim off
    simp [Repo.list_and_count, List.filter_append, Repo.isPagination]

/-- C3 witness: a collection filter over a two-entity dataset, with a
limit/offset filter of limit 1 appended. -/
theorem list_and_count_spec_witness :
    (Repo.list_and_count [Repo.FilterTy.collectionFilter "id" [1, 2]] []
        [Entity.mk [("id", 1)], Entity.mk [("id", 3)]]).2 =
      (Repo.list [Repo.FilterTy.collectionFilter "id" [1, 2]] []
        [Entity.mk [("id", 1)], Entity.mk [("id", 3)]]).length ∧
    ∀ lim off,
      (Repo.list_and_count
          ([Repo.FilterTy.collectionFilter "id" [1, 2]] ++
            [Repo.FilterTy.limitOffset lim off]) []
          [Entity.mk [("id", 1)], Entity.mk [("id", 3)]]).2 =
        (Repo.list_and_count [Repo.FilterTy.collectionFilter "id" [1, 2]] []
          [Entity.mk [("id", 1)], Entity.mk [("id", 3)]]).2 :=
  list_and_count_spec [Repo.FilterTy.collectionFilter "id" [1, 2]] []
    [Entity.mk [("id", 1)], Entity.mk [("id", 3)]] (by decide)

/-- C2: adding an entity returns it as the stored entity, and when the
collection held no entity with the same id-attribute value, `get` at the
stored entity's id value returns an entity equal to it (round-trip). -/
theorem add_get_roundtrip (ida : Attr) (s : List Entity) (data : Entity)
    (item_id : Val) (hid : data.getattr ida = some item_id)
    (hfresh : ∀ e ∈ s, e.getattr ida ≠ some item_id) :
    (Repo.add s data).2 = data ∧
    Repo.get ida (Repo.add s data).1 item_id = Except.ok data := by
  have hnone : s.find? (Repo.hasId ida item_id) = none := by
    rw [List.find?_eq_none]
    intro e he
    simp [Repo.hasId, hfresh e he]
  refine ⟨rfl, ?_⟩
  simp [Repo.get, Repo.add, List.find?_append, hnone, Repo.hasId, hid,
    check_not_found]

/-- C2 witness: adding an entity with id 1 to a collection holding id 2. -/
theorem add_get_roundtrip_witness :
    (Repo.add [Entity.mk [("id", 2)]] (Entity.mk [("id", 1), ("name", 7)])).2 =
      Entity.mk [("id", 1), ("name", 7)] ∧
    Repo.get id_attribute
        (Repo.add [Entity.mk [("id", 2)]]
          (Entity.mk [("id", 1), ("name", 7)])).1 1 =
      Except.ok (Entity.mk [("id", 1), ("name", 7)]) :=
  add_get_roundtrip id_attribute [Entity.mk [("id", 2)]]
    (Entity.mk [("id", 1), ("name", 7)]) 1 (by decide) (by decide)

theorem find?_key_of_nodup (l : List (Attr × Val)) (k : Attr) (v : Val)
    (hnd : (l.map Prod.fst).Nodup) (hmem : (k, v) ∈ l) :
    l.find? (fun p => p.1 = k) = some (k, v) := by
  induction l with
  | nil => cases hmem
  | cons p ps ih =>
    rw [List.map_cons, List.nodup_cons] at hnd
    rcases List.mem_cons.mp hmem with h | h
    · subst h
      simp [List.find?_cons]
    · have hne : ¬ p.1 = k := by
        intro hpk
        apply hnd.1
        rw [hpk]
        exact List.mem_map.mpr ⟨(k, v), h, rfl⟩
      simp [List.find?_cons, hne, ih hnd.2 h]

theorem matchesKwargs_self (kwargs : List (Attr × Val))
    (hnd : (kwargs.map Prod.fst).Nodup) :
    Repo.matchesKwargs ⟨kwargs⟩ kwargs = true := by
  rw [Repo.matchesKwargs, List.all_eq_true]
  intro p hp
  simp [Entity.getattr, find?_key_of_nodup kwargs p.1 p.2 hnd hp]

/-- C5: with keyword filters whose keys are distinct (Python keyword
arguments) and no matching record present, the first `get_or_create` call
creates and returns an entity with the created flag `true`, and a second
call with identical keywords on the resulting collection returns the same
entity with the created flag `false`. -/
theorem get_or_create_twice (s : List Entity) (kwargs : List (Attr × Val))
    (hnd : (kwargs.map Prod.fst).Nodup)
    (hnone : ∀ e ∈ s, Repo.matchesKwargs e kwargs = false) :
    ∃ e, Repo.get_or_create s kwargs = (s ++ [e], e, true) ∧
         Repo.get_or_create (s ++ [e]) kwargs = (s ++ [e], e, false) := by
  have hfind : s.find? (fun e => Repo.matchesKwargs e kwargs) = none := by
    rw [List.find?_eq_none]
    intro e he
    simp [hnone e he]
  refine ⟨⟨kwargs⟩, ?_, ?_⟩
  · simp [Repo.get_or_create, hfind]
  · simp [Repo.get_or_create, List.find?_append, hfind, List.find?_cons,
      matchesKwargs_self kwargs hnd]

/-- C5 witness: empty collection, one keyword `id = 1`. -/
theorem get_or_create_twice_witness :
    ∃ e, Repo.get_or_create [] [(("id" : Attr), (1 : Val))] =
        ([] ++ [e], e, true) ∧
      Repo.get_or_create ([] ++ [e]) [(("id" : Attr), (1 : Val))] =
        ([] ++ [e], e, false) :=
  get_or_create_twice [] [("id", 1)] (by decide) (by simp)

/-- C6: `upsert` is idempotent: the first application returns some collection
state together with the stored entity `data`, and a second application of
`upsert` with the same `data` on that state returns the same stored entity
and leaves the collection state unchanged. -/
theorem upsert_idempotent (ida : Attr) (s : List Entity) (data : Entity) :
    ∃ s', Repo.upsert ida s data = Except.ok (s', data) ∧
          Repo.upsert ida s' data = Except.ok (s', data) := by
  have hself : Repo.sameId ida data data = true := by
    simp [Repo.sameId]
  by_cases h : s.any (Repo.sameId ida data) = true
  · refine ⟨s.map (Repo.replaceSame ida data), ?_, ?_⟩
    · simp [Repo.upsert, Repo.update, h]
    · have hany : (s.map (Repo.replaceSame ida data)).any
          (Repo.sameId ida data) = true := by
        rw [List.any_eq_true] at h ⊢
        obtain ⟨e, he, hse⟩ := h
        refine ⟨data, List.mem_map.mpr ⟨e, he, ?_⟩, hself⟩
        simp [Repo.replaceSame, hse]
      have hff : ∀ e, Repo.replaceSame ida data (Repo.replaceSame ida data e) =
          Repo.replaceSame ida data e := by
        intro e
        by_cases hse : Repo.sameId ida data e = true
        · simp [Repo.replaceSame, hse, hself]
        · simp [Repo.replaceSame, hse]
      have hmap : (s.map (Repo.replaceSame ida data)).map
          (Repo.replaceSame ida data) = s.map (Repo.replaceSame ida data) := by
        rw [List.map_map]
        exact List.map_congr_left (fun a _ => hff a)
      simp [Repo.upsert, Repo.update, hany, hmap]
  · rw [Bool.not_eq_true] at h
    refine ⟨s ++ [data], ?_, ?_⟩
    · simp [Repo.upsert, Repo.update, h, Repo.add]
    · have hany : (s ++ [data]).any (Repo.sameId ida data) = true := by
        simp [hself]
      have hid : ∀ e ∈ s, Repo.replaceSame ida data e = e := by
        intro e he
        rw [List.any_eq_false] at h
        simp [Repo.replaceSame, h e he]
      have hmap : (s ++ [data]).map (Repo.replaceSame ida data) = s ++ [data] := by
        rw [List.map_append]
        have hs : s.map (Repo.replaceSame ida data) = s := by
          rw [List.map_congr_left hid]
          exact List.map_id s
        rw [hs]
        simp [Repo.replaceSame, hself]
      simp [Repo.upsert, Repo.update, hany, hmap]

end Starlite
